import Mathlib

/-!
Verification of the dg-commons anytime RRT-Dubins planner and the rocket
command model against their natural-language specification.

Real numbers of the Python code (floats) are embedded as rationals; Python
dictionaries (insertion-ordered) are embedded as association lists; Python
exceptions are embedded as the error case of `Except String`.  Code of the
repository that is not part of the provided sources (the `AnytimeRRT` base
class, the `AnyNode`/`Tree` substrate and the Dubins path generator) is
modelled from the specification; each such definition carries a doc comment
starting with `Modelled from the spec:`.
-/

/-- A 2D pose (`SE2Transform`): position `(x, y)` and heading `theta`. -/
structure SE2Transform where
  x : ℚ
  y : ℚ
  theta : ℚ
  deriving DecidableEq, Repr

/-- Modelled from the spec: node identifiers.  The Python code uses the
string id `'new'` for a freshly steered node and `str(counter)` for inserted
nodes; since `str` is injective on naturals and `'new'` is not a numeral,
the id space is faithfully represented by this two-constructor type. -/
inductive NodeId where
  | new : NodeId
  | num : Nat → NodeId
  deriving DecidableEq, Repr

/-- Modelled from the spec: a tree vertex (`AnyNode` of `node.py`): pose,
incoming path segment, cumulative cost, parent reference and unique id.
The parent is stored as an id into the id-keyed tree mapping (the arena
representation recommended by the spec); a freshly constructed node has
cost `0` and no parent (the root is created with cost exactly `0`). -/
structure AnyNode where
  id : NodeId
  pose : SE2Transform
  path : List SE2Transform
  cost : ℚ
  parent : Option NodeId
  deriving DecidableEq, Repr

/-- The result of `Tree.find_best_path`: an ordered pose sequence together
with the leaf cost as total length. -/
structure RrtPath where
  path : List SE2Transform
  cost : ℚ
  deriving DecidableEq, Repr

/-- The vehicle configuration handed to the external goal predicate
(`VehicleStateDyn(x, y, theta, vx, delta)`). -/
structure VehicleStateDyn where
  x : ℚ
  y : ℚ
  theta : ℚ
  vx : ℚ
  delta : ℚ
  deriving DecidableEq, Repr

/-- The insertion-ordered id-keyed node mapping owned by the `Tree`
(Python dictionaries preserve insertion order). -/
abbrev TreeMap : Type := List (NodeId × AnyNode)

/-- Lookup of a node by id in the tree mapping. -/
def treeLookup (t : TreeMap) (k : NodeId) : Option AnyNode :=
  match List.find? (fun kv => decide (kv.1 = k)) t with
  | some kv => some kv.2
  | none => none

/-- The mutable planner state: the tree mapping, the node counter
(`number_nodes`), the stored committed path (`self.path`) and the position
in the pseudo-random sample stream (the state of the seeded RNG). -/
structure PlannerState where
  tree : TreeMap
  numberNodes : Nat
  path : Option RrtPath
  sampleIdx : Nat
  deriving DecidableEq

/-- The planner configuration, immutable for the planner lifetime, together
with its external collaborators.  Modelled from the spec: `dubins` is the
pure Dubins path generator (returns the sampled pose sequence and the
signed segment lengths; the mode label is irrelevant here), `sampler` is
the deterministic goal-biased pseudo-random pose stream induced by the
seed, `collision` is the external collision oracle on an actual candidate
node, `isFulfilled` is the external goal-region membership predicate,
`prune` is `remove_driven_nodes` of the base class and `pathValid` is
`check_path_valid` of the base class (reading the stored path and the
current scenario). -/
structure Config where
  maxIter : Nat
  expandIter : Nat
  searchUntilMaxIter : Bool
  expandDis : ℚ
  pathResolution : ℚ
  curvature : ℚ
  dubins : SE2Transform → SE2Transform → ℚ → ℚ → (List SE2Transform × List ℚ)
  sampler : Nat → SE2Transform
  collision : AnyNode → Bool
  isFulfilled : VehicleStateDyn → Bool
  prune : SE2Transform → PlannerState → PlannerState
  pathValid : Option RrtPath → Bool

/-- Python `int()` on a rational: truncation toward zero. -/
def pyInt (q : ℚ) : Int :=
  if q < 0 then q.ceil else q.floor

/-- Python list indexing: non-negative indices from the front, negative
indices from the back; `none` is an `IndexError`. -/
def pyGet {α : Type} (l : List α) (i : Int) : Option α :=
  if 0 ≤ i then l.get? i.toNat
  else
    let j := (l.length : Int) + i
    if 0 ≤ j then l.get? j.toNat else none

/-- Maps an `ok` result to `true` and a raised exception to `false`. -/
def okB {α : Type} (e : Except String α) : Bool :=
  match e with
  | Except.ok _ => true
  | Except.error _ => false

/-- The total arc length of a Dubins segment: the sum of the absolute
signed segment lengths (`sum([abs(c) for c in course_lengths])`). -/
def arcLen (courseLengths : List ℚ) : ℚ :=
  (courseLengths.map (fun c => |c|)).sum

/- ## Rocket commands (`rocket.py`) -/

/-- Embeds `RocketCommands`: thrusts of the two engines and the nozzle
angular velocity. -/
structure RocketCommands where
  F_left : ℚ
  F_right : ℚ
  dphi : ℚ
  deriving DecidableEq, Repr

/-- Embeds `RocketCommands.idx`: the frozen field-to-index dictionary. -/
def RocketCommands.idx : List (String × Nat) :=
  [("F_left", 0), ("F_right", 1), ("dphi", 2)]

/-- Embeds `RocketCommands.get_n_commands`. -/
def RocketCommands.get_n_commands : Nat :=
  RocketCommands.idx.length

/-- Embeds `RocketCommands.as_ndarray`: the commands as a flat array. -/
def RocketCommands.as_ndarray (c : RocketCommands) : List ℚ :=
  [c.F_left, c.F_right, c.dphi]

/-- Dictionary lookup in `idx`; `none` is a Python `KeyError`. -/
def RocketCommands.idxLookup (k : String) : Option Nat :=
  match List.find? (fun kv => decide (kv.1 = k)) RocketCommands.idx with
  | some kv => some kv.2
  | none => none

/-- Embeds `RocketCommands.from_array`.  The assertion compares the command count
with the array size (and first dimension; identical for a flat array).
The body then evaluates `z[cls.idx["acc_left "]]`: the key `"acc_left "`
(trailing blank) is not in `idx`, raising `KeyError`; the key
`"acc_right"` is not in `idx` either; and even with both indices in hand
the constructor call `RocketCommands(acc_left=..., acc_right=...)` names
fields that do not exist, raising `TypeError`.  Every raise is embedded as
an `Except.error`. -/
def RocketCommands.from_array (z : List ℚ) : Except String RocketCommands :=
  if RocketCommands.get_n_commands = z.length then
    match RocketCommands.idxLookup "acc_left " with
    | none => Except.error "KeyError"
    | some _ =>
      match RocketCommands.idxLookup "acc_right" with
      | none => Except.error "KeyError"
      | some _ => Except.error "TypeError"
  else
    Except.error "AssertionError"

/- ## Planner substrate (`AnytimeRRT` base class, `Tree`, Dubins generator) -/

/-- Modelled from the spec: `get_random_node` draws the next goal-biased
pseudo-random pose from the seeded stream and wraps it as a node; the
stream position advances on every draw. -/
def get_random_node (cfg : Config) (s : PlannerState) : AnyNode × PlannerState :=
  (⟨NodeId.new, cfg.sampler s.sampleIdx, [], 0, none⟩,
   { s with sampleIdx := s.sampleIdx + 1 })

/-- Squared Euclidean distance between the positions of two poses
(heading ignored). -/
def sqDist (a b : SE2Transform) : ℚ :=
  (a.x - b.x) * (a.x - b.x) + (a.y - b.y) * (a.y - b.y)

/-- Modelled from the spec: `get_nearest_node_from_tree` returns the tree
node minimizing the Euclidean distance between positions, by linear scan
in iteration order, ties broken by the first node encountered; `none` only
on an empty tree (where Python `min` would raise `ValueError`). -/
def get_nearest_node_from_tree (t : TreeMap) (rnd : AnyNode) : Option AnyNode :=
  t.foldl
    (fun acc kv =>
      match acc with
      | none => some kv.2
      | some b => if sqDist kv.2.pose rnd.pose < sqDist b.pose rnd.pose then some kv.2 else acc)
    none

/-- Modelled from the spec: `Tree.set_child(parent, child)` records the
parent link on the child; it does not insert the child into the mapping. -/
def Tree.set_child (parent child : AnyNode) : AnyNode :=
  { child with parent := some parent.id }

/-- Modelled from the spec: `Tree.insert(node)` adds the node to the
id-keyed mapping and fails (invariant violation) if the id already
exists. -/
def Tree.insert (t : TreeMap) (n : AnyNode) : Except String TreeMap :=
  if (treeLookup t n.id).isSome then Except.error "duplicate id"
  else Except.ok (t ++ ([(n.id, n)] : TreeMap))

/-- Modelled from the spec: the leaf-to-root parent chain of a node,
walking parent links through the id-keyed mapping; the walk is
fuel-bounded by the tree size (the spec guarantees the root is reached in
at most `|tree|` steps). -/
def parentChain (t : TreeMap) : Nat → AnyNode → List AnyNode
  | 0, n => [n]
  | fuel + 1, n =>
    match n.parent with
    | none => [n]
    | some pid =>
      match treeLookup t pid with
      | none => [n]
      | some p => n :: parentChain t fuel p

/-- Modelled from the spec: `Tree.find_best_path(leaf)` walks the parent
chain from the leaf to the root, concatenates the stored path segments in
root-to-leaf order dropping the duplicated junction pose at the start of
every non-root segment, and returns the pose sequence together with the
leaf cost as total length. -/
def find_best_path (t : TreeMap) (leaf : AnyNode) : RrtPath :=
  let chain := (parentChain t t.length leaf).reverse
  let poses :=
    match chain with
    | [] => []
    | r :: rest => r.path ++ (rest.map (fun n => n.path.drop 1)).flatten
  { path := poses, cost := leaf.cost }

/- ## `AnytimeRRTDubins` (from the source) -/

/-- Embeds `AnytimeRRTDubins.constrained_steer`.  The first Dubins query
connects the two node poses; a result of at most one sample is a steer
failure (`ok none`).  The truncation index is `int(3 / path_resolution)`;
when it lies strictly inside the path, a second Dubins query re-plans to
the sampled pose at that index.  The new node is a fresh `AnyNode` with id
`'new'` and cost `0`, whose cost is then incremented by the sum of the
absolute segment lengths of the (possibly re-planned) path, and whose
parent is the start node.  Out-of-range indexing (`path[path_idx]`,
`path[-1]`) raises `IndexError`.  The `extend_length` argument is never
read. -/
def constrained_steer (cfg : Config) (from_node to_node : AnyNode) (_extend_length : ℚ) :
    Except String (Option AnyNode) :=
  let pr := cfg.dubins from_node.pose to_node.pose cfg.curvature cfg.pathResolution
  if pr.1.length ≤ 1 then Except.ok none
  else
    let path_idx : Int := pyInt (3 / cfg.pathResolution)
    let step2 : Except String (List SE2Transform × List ℚ) :=
      if path_idx < (pr.1.length : Int) - 1 then
        match pyGet pr.1 path_idx with
        | none => Except.error "IndexError"
        | some target =>
          Except.ok (cfg.dubins from_node.pose target cfg.curvature cfg.pathResolution)
      else Except.ok pr
    match step2 with
    | Except.error e => Except.error e
    | Except.ok pr2 =>
      match pr2.1.getLast? with
      | none => Except.error "IndexError"
      | some lastPose =>
        Except.ok (some
          { id := NodeId.new, pose := lastPose, path := pr2.1,
            cost := 0 + arcLen pr2.2, parent := some from_node.id })

/-- Embeds `AnytimeRRTDubins.reached_goal`: the node pose, reinterpreted
as a vehicle configuration with zero linear velocity and zero steering, is
handed to the external goal predicate. -/
def reached_goal (cfg : Config) (node : AnyNode) : Bool :=
  cfg.isFulfilled
    { x := node.pose.x, y := node.pose.y, theta := node.pose.theta, vx := 0, delta := 0 }

/-- Embeds the `final_goal_nodes` collection of
`AnytimeRRTDubins.search_best_goal_node`: the tree nodes satisfying the
goal, in tree iteration order. -/
def goalNodes (cfg : Config) (s : PlannerState) : List AnyNode :=
  (s.tree.map (fun kv => kv.2)).filter (fun n => reached_goal cfg n)

/-- Embeds the selection step of `AnytimeRRTDubins.search_best_goal_node`
on the collected goal-node list: if it is empty, return `None`; otherwise
compute the minimum cost by `min(...)` and return the first node whose
cost equals it. -/
def bestOf : List AnyNode → Option AnyNode
  | [] => none
  | n0 :: rest =>
    let min_cost := (rest.map (fun n => n.cost)).foldl min n0.cost
    (n0 :: rest).find? (fun n => decide (n.cost = min_cost))

/-- Embeds `AnytimeRRTDubins.search_best_goal_node`: collect the
goal-satisfying tree nodes in iteration order and select the first one of
minimum cost. -/
def search_best_goal_node (cfg : Config) (s : PlannerState) : Option AnyNode :=
  bestOf (goalNodes cfg s)

/-- One sample/nearest/steer/collision-gated-insert step, shared verbatim
by the loop bodies of `planning` and `expand_tree`.  Returns the new state
together with whether the steer produced a node (`new_node` is truthy) and
whether the node was inserted.  A steer failure is discarded (the spec:
candidate discarded, sampling continues); on insertion the node counter is
incremented first and the node id becomes its value. -/
def growStep (cfg : Config) (s : PlannerState) :
    Except String (PlannerState × Bool × Bool) :=
  let rs := get_random_node cfg s
  let rnd_node := rs.1
  let s1 := rs.2
  match get_nearest_node_from_tree s1.tree rnd_node with
  | none => Except.error "ValueError"
  | some nearest_node =>
    match constrained_steer cfg nearest_node rnd_node cfg.expandDis with
    | Except.error e => Except.error e
    | Except.ok steered =>
      match steered with
      | none => Except.ok (s1, false, false)
      | some new_node =>
        if cfg.collision new_node then
          Except.ok (s1, true, false)
        else
          let n1 := Tree.set_child nearest_node
            { new_node with id := NodeId.num (s1.numberNodes + 1) }
          match Tree.insert s1.tree n1 with
          | Except.error e => Except.error e
          | Except.ok tree2 =>
            Except.ok ({ s1 with tree := tree2, numberNodes := s1.numberNodes + 1 }, true, true)

/-- Instrumentation record for one `planning` loop iteration: whether the
steer produced a node, whether it was inserted, and whether the goal probe
was evaluated. -/
structure IterEvent where
  steered : Bool
  added : Bool
  probed : Bool
  deriving DecidableEq, Repr

/-- One iteration of the `planning` loop: the grow step followed by the
goal probe, which the code guards by
`(not search_until_max_iter) and new_node` (the truthiness of the steer
result, not the insertion).  A successful probe stores and returns the
best goal path (the early return of `planning`). -/
def planIter (cfg : Config) (s : PlannerState) :
    Except String (PlannerState × IterEvent × Option RrtPath) :=
  match growStep cfg s with
  | Except.error e => Except.error e
  | Except.ok g =>
    let s1 := g.1
    let steered := g.2.1
    let added := g.2.2
    if !cfg.searchUntilMaxIter && steered then
      match search_best_goal_node cfg s1 with
      | some last_node =>
        let p := find_best_path s1.tree last_node
        Except.ok ({ s1 with path := some p }, ⟨steered, added, true⟩, some p)
      | none => Except.ok (s1, ⟨steered, added, true⟩, none)
    else
      Except.ok (s1, ⟨steered, added, false⟩, none)

/-- The `for i in range(max_iter)` loop of `planning`, with the iteration
events accumulated; a successful in-loop probe stops the loop (early
return). -/
def planLoop (cfg : Config) : Nat → PlannerState →
    Except String (PlannerState × Option RrtPath × List IterEvent)
  | 0, s => Except.ok (s, none, [])
  | k + 1, s =>
    match planIter cfg s with
    | Except.error e => Except.error e
    | Except.ok r =>
      match r.2.2 with
      | some p => Except.ok (r.1, some p, [r.2.1])
      | none =>
        match planLoop cfg k r.1 with
        | Except.error e => Except.error e
        | Except.ok rest => Except.ok (rest.1, rest.2.1, r.2.1 :: rest.2.2)

/-- Embeds `AnytimeRRTDubins.planning`: run the loop; on early return,
return the stored path poses; otherwise perform one final goal probe and
return the best goal path poses, or `none` (the no-path signal, with the
stored path left untouched). -/
def planning (cfg : Config) (s : PlannerState) :
    Except String (PlannerState × Option (List SE2Transform) × List IterEvent) :=
  match planLoop cfg cfg.maxIter s with
  | Except.error e => Except.error e
  | Except.ok lr =>
    match lr.2.1 with
    | some p => Except.ok (lr.1, some p.path, lr.2.2)
    | none =>
      match search_best_goal_node cfg lr.1 with
      | some last_node =>
        let p := find_best_path lr.1.tree last_node
        Except.ok ({ lr.1 with path := some p }, some p.path, lr.2.2)
      | none => Except.ok (lr.1, none, lr.2.2)

/-- Embeds `AnytimeRRTDubins.replanning`: prune driven nodes; if the
stored path is still valid, return it unchanged (`self.path.path` on a
missing stored path would raise `AttributeError`); otherwise clear the
whole tree (`tree.remove()`: the spec, clears all tree content), perform
one goal probe, return the recovered best goal path if any, else clear the
stored path and return the no-path signal. -/
def replanning (cfg : Config) (s : PlannerState) (current_pose : SE2Transform) :
    Except String (PlannerState × Option (List SE2Transform)) :=
  let s1 := cfg.prune current_pose s
  if cfg.pathValid s1.path then
    match s1.path with
    | some p => Except.ok (s1, some p.path)
    | none => Except.error "AttributeError"
  else
    let s2 := { s1 with tree := ([] : TreeMap) }
    match search_best_goal_node cfg s2 with
    | some last_node =>
      let p := find_best_path s2.tree last_node
      Except.ok ({ s2 with path := some p }, some p.path)
    | none => Except.ok ({ s2 with path := none }, none)

/-- The `for i in range(expand_iter)` loop of `expand_tree`. -/
def expandLoop (cfg : Config) : Nat → PlannerState → Except String PlannerState
  | 0, s => Except.ok s
  | k + 1, s =>
    match growStep cfg s with
    | Except.error e => Except.error e
    | Except.ok g => expandLoop cfg k g.1

/-- Embeds `AnytimeRRTDubins.expand_tree`: `expand_iter` grow steps with
no goal probe and no return value. -/
def expand_tree (cfg : Config) (s : PlannerState) : Except String PlannerState :=
  expandLoop cfg cfg.expandIter s

/- ## The call protocol (for the determinism property) -/

/-- One call of the outer protocol: `planning()`, `expand_tree()` or
`replanning(current_pose)`. -/
inductive PlannerCall where
  | plan : PlannerCall
  | expand : PlannerCall
  | replan : SE2Transform → PlannerCall

/-- Execute one protocol call, returning the next state and the returned
path, if any. -/
def runCall (cfg : Config) (s : PlannerState) :
    PlannerCall → Except String (PlannerState × Option (List SE2Transform))
  | PlannerCall.plan =>
    match planning cfg s with
    | Except.error e => Except.error e
    | Except.ok r => Except.ok (r.1, r.2.1)
  | PlannerCall.expand =>
    match expand_tree cfg s with
    | Except.error e => Except.error e
    | Except.ok s2 => Except.ok (s2, none)
  | PlannerCall.replan pose => replanning cfg s pose

/-- Execute a sequence of protocol calls, accumulating the returned paths;
a raised exception stops the run. -/
def runCalls (cfg : Config) (s : PlannerState) :
    List PlannerCall → Except String (PlannerState × List (Option (List SE2Transform)))
  | [] => Except.ok (s, [])
  | c :: cs =>
    match runCall cfg s c with
    | Except.error e => Except.error e
    | Except.ok r =>
      match runCalls cfg r.1 cs with
      | Except.error e => Except.error e
      | Except.ok rest => Except.ok (rest.1, r.2 :: rest.2)

/- ## Concrete instances for witnesses and counterexamples -/

/-- A degenerate straight-segment Dubins generator for concrete runs: the
sampled path is the two endpoint poses and the single signed segment
length is `1`. -/
def dubinsLine : SE2Transform → SE2Transform → ℚ → ℚ → (List SE2Transform × List ℚ) :=
  fun a b _ _ => ([a, b], [1])

/-- The root node installed at planner construction: start pose, cost
exactly `0`, no parent. -/
def rootNode : AnyNode :=
  ⟨NodeId.num 0, ⟨0, 0, 0⟩, [⟨0, 0, 0⟩], 0, none⟩

/-- The initial planner state: the tree holds only the root. -/
def initState : PlannerState :=
  ⟨[(NodeId.num 0, rootNode)], 0, none, 0⟩

/-- A collision-free, goal-free configuration: two iterations, samples at
`(10,0)` then `(20,0)`, unit-length straight steers. -/
def cfgDemo : Config :=
  { maxIter := 2, expandIter := 1, searchUntilMaxIter := true,
    expandDis := 3, pathResolution := 1, curvature := 1,
    dubins := dubinsLine,
    sampler := fun i => if i = 0 then ⟨10, 0, 0⟩ else ⟨20, 0, 0⟩,
    collision := fun _ => false,
    isFulfilled := fun _ => false,
    prune := fun _ st => st,
    pathValid := fun _ => false }

/-- A configuration whose collision oracle rejects everything and whose
goal predicate accepts everything, with `search_until_max_iter` false. -/
def cfgProbe : Config :=
  { cfgDemo with searchUntilMaxIter := false,
                 collision := fun _ => true,
                 isFulfilled := fun _ => true }

/-- The first node inserted by `planning cfgDemo initState`. -/
def nodeOne : AnyNode :=
  ⟨NodeId.num 1, ⟨10, 0, 0⟩, [⟨0, 0, 0⟩, ⟨10, 0, 0⟩], 1, some (NodeId.num 0)⟩

/-- The second node inserted by `planning cfgDemo initState`: its cost is
the length of its own segment only, not cumulative. -/
def nodeTwo : AnyNode :=
  ⟨NodeId.num 2, ⟨20, 0, 0⟩, [⟨10, 0, 0⟩, ⟨20, 0, 0⟩], 1, some (NodeId.num 1)⟩

/- ## Claim theorems -/

unseal Rat.mul Rat.add Rat.inv Rat.sub

/-- C1: the claimed invariant `cost = parent.cost + arc_length(path)`
fails on the code.  Running `planning` on the demo configuration inserts
`nodeOne` (child of the zero-cost root, cost `1` = its segment length) and
`nodeTwo` (child of `nodeOne`); `constrained_steer` builds `nodeTwo` as a
fresh node of cost `0` plus its own segment arc length `1`, so
`nodeTwo.cost = 1` although its parent's cost plus the segment arc length
is `2`: every node's cost is the length of its own segment, not the total
path length from the root. -/
theorem planning_breaks_cost_invariant :
    (planning cfgDemo initState).toOption.map (fun r => r.1.tree) =
      some [(NodeId.num 0, rootNode), (NodeId.num 1, nodeOne), (NodeId.num 2, nodeTwo)] ∧
    (constrained_steer cfgDemo nodeOne ⟨NodeId.new, ⟨20, 0, 0⟩, [], 0, none⟩
        cfgDemo.expandDis).toOption = some (some { nodeTwo with id := NodeId.new }) ∧
    nodeTwo.parent = some nodeOne.id ∧
    arcLen (cfgDemo.dubins nodeOne.pose nodeTwo.pose cfgDemo.curvature cfgDemo.pathResolution).2
      = 1 ∧
    rootNode.cost = 0 ∧
    nodeOne.cost = rootNode.cost + 1 ∧
    nodeTwo.cost ≠ nodeOne.cost + 1 := by
  decide

/-- C2: `constrained_steer` never reads its `extend_length` argument nor
the configured `expand_dis`: for every pair of endpoint nodes, every
passed `extend_length` and every configured `expand_dis` the result is
identical (the truncation index is the fixed `int(3 / path_resolution)`). -/
theorem constrained_steer_independent_of_expand_dis (cfg : Config) (d e1 e2 : ℚ)
    (from_node to_node : AnyNode) :
    constrained_steer cfg from_node to_node e1 =
      constrained_steer { cfg with expandDis := d } from_node to_node e2 := rfl

/-- C3 counterexample: with `search_until_max_iter` false, an iteration in
which the steer succeeded but the collision oracle rejected the node (so
nothing was added to the tree) still performs the goal probe — and here
even returns early on it — refuting "the goal probe runs if and only if a
node was added this iteration". -/
theorem planning_probes_without_insertion :
    cfgProbe.searchUntilMaxIter = false ∧
    (planning cfgProbe initState).toOption.map (fun r => r.2.2) =
      some [{ steered := true, added := false, probed := true }] ∧
    ({ steered := true, added := false, probed := true } : IterEvent).probed = true ∧
    ({ steered := true, added := false, probed := true } : IterEvent).added = false := by
  decide

/-- C5: whenever the stored path is found invalid, `replanning` has
already cleared the whole tree before the goal probe, so the probe scans
an empty mapping and returns `none`: the recovery branch is unreachable
and the call always clears the stored path and returns the no-path
signal. -/
theorem replanning_invalid_clears_and_fails (cfg : Config) (s : PlannerState)
    (pose : SE2Transform) (h : cfg.pathValid (cfg.prune pose s).path = false) :
    search_best_goal_node cfg { cfg.prune pose s with tree := ([] : TreeMap) } = none ∧
    replanning cfg s pose =
      Except.ok ({ cfg.prune pose s with tree := ([] : TreeMap), path := none }, none) := by
  refine ⟨rfl, ?_⟩
  simp only [replanning, h, Bool.false_eq_true, if_false]
  rfl

/-- Witness for C5 at the demo configuration. -/
theorem replanning_invalid_clears_and_fails_witness :
    search_best_goal_node cfgDemo { cfgDemo.prune ⟨0, 0, 0⟩ initState with tree := ([] : TreeMap) }
        = none ∧
    replanning cfgDemo initState ⟨0, 0, 0⟩ =
      Except.ok ({ cfgDemo.prune ⟨0, 0, 0⟩ initState with tree := ([] : TreeMap), path := none },
        none) :=
  replanning_invalid_clears_and_fails cfgDemo initState ⟨0, 0, 0⟩ rfl

/-- C8: the planner is deterministic: two instances with identical
configuration (seeded sample stream included) and identical initial state,
subjected to the same call sequence, produce identical states (trees) and
identical returned paths. -/
theorem planner_runs_deterministic (cfg1 cfg2 : Config) (s1 s2 : PlannerState)
    (calls : List PlannerCall) (hcfg : cfg1 = cfg2) (hst : s1 = s2) :
    runCalls cfg1 s1 calls = runCalls cfg2 s2 calls := by
  subst hcfg
  subst hst
  rfl

/-- Witness for C8 on a concrete three-call sequence. -/
theorem planner_runs_deterministic_witness :
    runCalls cfgDemo initState
        [PlannerCall.plan, PlannerCall.expand, PlannerCall.replan ⟨0, 0, 0⟩] =
      runCalls cfgDemo initState
        [PlannerCall.plan, PlannerCall.expand, PlannerCall.replan ⟨0, 0, 0⟩] :=
  planner_runs_deterministic cfgDemo cfgDemo initState initState
    [PlannerCall.plan, PlannerCall.expand, PlannerCall.replan ⟨0, 0, 0⟩] rfl rfl

/-- C9: `reached_goal` holds exactly when the externally supplied goal
predicate accepts the vehicle configuration whose position and heading are
the node's pose and whose linear velocity and steering are zero. -/
theorem reached_goal_iff_fulfilled_zero_rates (cfg : Config) (node : AnyNode) :
    reached_goal cfg node = true ↔
      cfg.isFulfilled { x := node.pose.x, y := node.pose.y, theta := node.pose.theta,
                        vx := 0, delta := 0 } = true := Iff.rfl

/-- Witness for C9 at the probing configuration and the root node. -/
theorem reached_goal_iff_fulfilled_zero_rates_witness :
    reached_goal cfgProbe rootNode = true ↔
      cfgProbe.isFulfilled { x := rootNode.pose.x, y := rootNode.pose.y,
                             theta := rootNode.pose.theta, vx := 0, delta := 0 } = true :=
  reached_goal_iff_fulfilled_zero_rates cfgProbe rootNode

/-- C10: `RocketCommands.from_array` raises on every input array (a size
mismatch fails the assertion; a size-3 array reaches the lookup of the
missing key `"acc_left "` and raises), so the round trip through
`as_ndarray` never succeeds for any commands value. -/
theorem from_array_always_raises :
    (∀ z : List ℚ, okB (RocketCommands.from_array z) = false) ∧
    (∀ c : RocketCommands, okB (RocketCommands.from_array (RocketCommands.as_ndarray c))
        = false) := by
  have h : ∀ z : List ℚ, okB (RocketCommands.from_array z) = false := by
    intro z
    unfold RocketCommands.from_array
    split
    · rfl
    · rfl
  exact ⟨h, fun c => h _⟩

/-- The probe decision of one `planning` iteration equals
`(not search_until_max_iter) and new_node`: the recorded `probed` flag is
exactly the conjunction of the negated flag and steer success. -/
theorem planIter_probed (cfg : Config) (s : PlannerState)
    (r : PlannerState × IterEvent × Option RrtPath) (h : planIter cfg s = Except.ok r) :
    r.2.1.probed = (!cfg.searchUntilMaxIter && r.2.1.steered) := by
  unfold planIter at h
  cases hg : growStep cfg s with
  | error e =>
    rw [hg] at h
    exact Except.noConfusion h
  | ok g =>
    rw [hg] at h
    by_cases hp : (!cfg.searchUntilMaxIter && g.2.1) = true
    · simp only [hp, if_true] at h
      cases hs : search_best_goal_node cfg g.1 with
      | some ln =>
        rw [hs] at h
        cases h
        simp [hp]
      | none =>
        rw [hs] at h
        cases h
        simp [hp]
    · simp only [hp, if_false] at h
      cases h
      simp only [Bool.not_eq_true] at hp
      exact hp.symm

/-- Every event recorded by the `planning` loop has its `probed` flag
equal to `(not search_until_max_iter) and steer-success`. -/
theorem planLoop_probed (cfg : Config) :
    ∀ (fuel : Nat) (s : PlannerState)
      (r : PlannerState × Option RrtPath × List IterEvent),
      planLoop cfg fuel s = Except.ok r →
      ∀ ev ∈ r.2.2, ev.probed = (!cfg.searchUntilMaxIter && ev.steered) := by
  intro fuel
  induction fuel with
  | zero =>
    intro s r h ev hev
    unfold planLoop at h
    cases h
    simp at hev
  | succ k ih =>
    intro s r h ev hev
    unfold planLoop at h
    cases hi : planIter cfg s with
    | error e =>
      simp only [hi] at h
      exact Except.noConfusion h
    | ok ir =>
      simp only [hi] at h
      cases hp : ir.2.2 with
      | some p =>
        simp only [hp] at h
        cases h
        simp only [List.mem_singleton] at hev
        subst hev
        exact planIter_probed cfg s ir hi
      | none =>
        simp only [hp] at h
        cases hl : planLoop cfg k ir.1 with
        | error e =>
          simp only [hl] at h
          exact Except.noConfusion h
        | ok rest =>
          simp only [hl] at h
          cases h
          rcases List.mem_cons.mp hev with hev | hev
          · subst hev
            exact planIter_probed cfg s ir hi
          · exact ih ir.1 rest hl ev hev

/-- C3 (amended): with `search_until_max_iter` false, an iteration of
`planning` performs the goal probe if and only if `constrained_steer`
returned a node in that iteration (its truthiness), regardless of whether
the node was rejected by the collision oracle and not added. -/
theorem planning_probe_iff_steer_success (cfg : Config) (s : PlannerState)
    (r : PlannerState × Option (List SE2Transform) × List IterEvent)
    (hsu : cfg.searchUntilMaxIter = false) (h : planning cfg s = Except.ok r) :
    ∀ ev ∈ r.2.2, ev.probed = ev.steered := by
  intro ev hev
  unfold planning at h
  cases hl : planLoop cfg cfg.maxIter s with
  | error e =>
    simp only [hl] at h
    exact Except.noConfusion h
  | ok lr =>
    simp only [hl] at h
    have hevents : r.2.2 = lr.2.2 := by
      cases hp : lr.2.1 with
      | some p =>
        simp only [hp] at h
        cases h
        rfl
      | none =>
        simp only [hp] at h
        cases hs : search_best_goal_node cfg lr.1 with
        | some ln =>
          simp only [hs] at h
          cases h
          rfl
        | none =>
          simp only [hs] at h
          cases h
          rfl
    have hev2 := planLoop_probed cfg cfg.maxIter s lr hl ev (hevents ▸ hev)
    rw [hsu] at hev2
    simpa using hev2

/-- The concrete result of `planning cfgProbe initState`. -/
def probeRun : PlannerState × Option (List SE2Transform) × List IterEvent :=
  (⟨[(NodeId.num 0, rootNode)], 0, some ⟨[⟨0, 0, 0⟩], 0⟩, 1⟩,
   some [⟨0, 0, 0⟩], [⟨true, false, true⟩])

/-- Witness for the amended C3 at the probing configuration: the single
recorded event has `probed` equal to `steered`. -/
theorem planning_probe_iff_steer_success_witness :
    (IterEvent.mk true false true).probed = (IterEvent.mk true false true).steered :=
  planning_probe_iff_steer_success cfgProbe initState probeRun rfl rfl
    (IterEvent.mk true false true) (by decide)

/- ## C6: minimum-cost goal selection -/

/-- A left fold with `min` is a lower bound of the seed and all elements. -/
theorem foldl_min_le (l : List ℚ) :
    ∀ (a : ℚ), ∀ x ∈ a :: l, List.foldl min a l ≤ x := by
  induction l with
  | nil =>
    intro a x hx
    simp only [List.mem_singleton] at hx
    rw [hx]
    simp
  | cons b t ih =>
    intro a x hx
    simp only [List.foldl_cons]
    rcases List.mem_cons.mp hx with hx | hx
    · rw [hx]
      exact le_trans (ih (min a b) (min a b) (List.mem_cons_self _ _)) (min_le_left a b)
    rcases List.mem_cons.mp hx with hx | hx
    · rw [hx]
      exact le_trans (ih (min a b) (min a b) (List.mem_cons_self _ _)) (min_le_right a b)
    · exact ih (min a b) x (List.mem_cons_of_mem _ hx)

/-- A left fold with `min` is attained: it is the seed or one of the
elements. -/
theorem foldl_min_mem (l : List ℚ) :
    ∀ (a : ℚ), List.foldl min a l ∈ a :: l := by
  induction l with
  | nil =>
    intro a
    simp
  | cons b t ih =>
    intro a
    simp only [List.foldl_cons]
    rcases List.mem_cons.mp (ih (min a b)) with h | h
    · rcases min_choice a b with hm | hm
      · rw [h, hm]
        exact List.mem_cons_self _ _
      · rw [h, hm]
        exact List.mem_cons_of_mem _ (List.mem_cons_self _ _)
    · exact List.mem_cons_of_mem _ (List.mem_cons_of_mem _ h)

/-- A successful `find?` splits the list at the first hit: everything
before it fails the predicate. -/
theorem find?_decomp {α : Type} (p : α → Bool) :
    ∀ (l : List α) (a : α), l.find? p = some a →
      ∃ l1 l2, l = l1 ++ a :: l2 ∧ (∀ x ∈ l1, p x = false) ∧ p a = true := by
  intro l
  induction l with
  | nil =>
    intro a h
    simp [List.find?] at h
  | cons b t ih =>
    intro a h
    cases hb : p b with
    | true =>
      rw [List.find?_cons_of_pos t hb] at h
      cases h
      exact ⟨[], t, rfl, by simp, hb⟩
    | false =>
      rw [List.find?_cons_of_neg t (by simp [hb])] at h
      obtain ⟨l1, l2, heq, hl1, hpa⟩ := ih a h
      refine ⟨b :: l1, l2, by rw [heq]; rfl, ?_, hpa⟩
      intro x hx
      rcases List.mem_cons.mp hx with hx | hx
      · subst hx
        exact hb
      · exact hl1 x hx

/-- If some member satisfies the predicate, `find?` succeeds. -/
theorem find?_isSome_of_mem {α : Type} (p : α → Bool) :
    ∀ (l : List α) (a : α), a ∈ l → p a = true → ∃ b, l.find? p = some b := by
  intro l
  induction l with
  | nil =>
    intro a ha
    simp at ha
  | cons b t ih =>
    intro a ha hpa
    cases hb : p b with
    | true => exact ⟨b, List.find?_cons_of_pos t hb⟩
    | false =>
      rcases List.mem_cons.mp ha with h | h
      · subst h
        rw [hb] at hpa
        exact absurd hpa (by simp)
      · obtain ⟨c, hc⟩ := ih a h hpa
        refine ⟨c, ?_⟩
        rw [List.find?_cons_of_neg t (by simp [hb])]
        exact hc

/-- The goal-node list is empty exactly when no tree node satisfies the
goal. -/
theorem goalNodes_nil_iff (cfg : Config) (s : PlannerState) :
    goalNodes cfg s = [] ↔ ∀ kv ∈ s.tree, reached_goal cfg kv.2 = false := by
  unfold goalNodes
  rw [List.filter_eq_nil_iff]
  constructor
  · intro h kv hkv
    have hm := List.mem_map_of_mem (fun kv : NodeId × AnyNode => kv.2) hkv
    have := h kv.2 hm
    simpa using this
  · intro h a ha
    obtain ⟨kv, hkv, rfl⟩ := List.mem_map.mp ha
    simp [h kv hkv]

/-- The fold/find selection on a nonempty goal list returns the first
minimum-cost element. -/
theorem find_first_min (n0 : AnyNode) (rest : List AnyNode) (n : AnyNode)
    (h : (n0 :: rest).find?
        (fun m => decide (m.cost = List.foldl min n0.cost (List.map (fun x => x.cost) rest)))
        = some n) :
    n ∈ n0 :: rest ∧
    (∀ m ∈ n0 :: rest, n.cost ≤ m.cost) ∧
    ∃ l1 l2, n0 :: rest = l1 ++ n :: l2 ∧ ∀ m ∈ l1, n.cost < m.cost := by
  obtain ⟨l1, l2, heq, hl1, hpn⟩ := find?_decomp _ (n0 :: rest) n h
  have hn_cost : n.cost = List.foldl min n0.cost (List.map (fun x => x.cost) rest) :=
    of_decide_eq_true hpn
  have hcosts : ∀ m ∈ n0 :: rest,
      List.foldl min n0.cost (List.map (fun x => x.cost) rest) ≤ m.cost := by
    intro m hm
    rcases List.mem_cons.mp hm with hm | hm
    · rw [hm]
      exact foldl_min_le _ n0.cost n0.cost (List.mem_cons_self _ _)
    · exact foldl_min_le _ n0.cost m.cost
        (List.mem_cons_of_mem _ (List.mem_map_of_mem (fun x : AnyNode => x.cost) hm))
  have hmem : n ∈ n0 :: rest := by
    rw [heq]
    exact List.mem_append_right l1 (List.mem_cons_self _ _)
  refine ⟨hmem, ?_, l1, l2, heq, ?_⟩
  · intro m hm
    rw [hn_cost]
    exact hcosts m hm
  · intro m hm
    have hm_mem : m ∈ n0 :: rest := by
      rw [heq]
      exact List.mem_append_left _ hm
    have hne : m.cost ≠ n.cost := by
      intro hc
      have hfalse := hl1 m hm
      rw [hn_cost] at hc
      simp [hc] at hfalse
    have hle : n.cost ≤ m.cost := by
      rw [hn_cost]
      exact hcosts m hm_mem
    exact lt_of_le_of_ne hle (Ne.symm hne)

/-- The search `search_best_goal_node` returns `none` exactly when the
goal-node list is empty. -/
theorem search_none_iff (cfg : Config) (s : PlannerState) :
    search_best_goal_node cfg s = none ↔ goalNodes cfg s = [] := by
  unfold search_best_goal_node
  cases hg : goalNodes cfg s with
  | nil => simp [bestOf]
  | cons n0 rest =>
    simp only [bestOf]
    constructor
    · intro hfind
      exfalso
      rcases List.mem_cons.mp
          (foldl_min_mem (rest.map (fun n => n.cost)) n0.cost) with hm | hm
      · obtain ⟨b, hb⟩ := find?_isSome_of_mem
          (fun n => decide (n.cost = List.foldl min n0.cost (rest.map (fun n => n.cost))))
          (n0 :: rest) n0 (List.mem_cons_self _ _)
          (by simp only [decide_eq_true_eq]; exact hm.symm)
        rw [hb] at hfind
        exact Option.noConfusion hfind
      · obtain ⟨m, hmem, hcost⟩ := List.mem_map.mp hm
        obtain ⟨b, hb⟩ := find?_isSome_of_mem
          (fun n => decide (n.cost = List.foldl min n0.cost (rest.map (fun n => n.cost))))
          (n0 :: rest) m (List.mem_cons_of_mem _ hmem)
          (by simp only [decide_eq_true_eq]; exact hcost)
        rw [hb] at hfind
        exact Option.noConfusion hfind
    · intro h
      exact List.noConfusion h

/-- C6: `search_best_goal_node` returns `none` exactly when no tree node
satisfies the goal; a returned node is a goal-satisfying tree node of
minimum cost among all goal-satisfying nodes, and it is the first node in
tree iteration order achieving that minimum (exact ties broken by first
encountered). -/
theorem search_best_goal_node_spec (cfg : Config) (s : PlannerState) :
    (search_best_goal_node cfg s = none ↔ ∀ kv ∈ s.tree, reached_goal cfg kv.2 = false) ∧
    (∀ n, search_best_goal_node cfg s = some n →
      n ∈ goalNodes cfg s ∧ reached_goal cfg n = true ∧
      (∀ m ∈ goalNodes cfg s, n.cost ≤ m.cost) ∧
      ∃ l1 l2, goalNodes cfg s = l1 ++ n :: l2 ∧ ∀ m ∈ l1, n.cost < m.cost) := by
  constructor
  · exact (search_none_iff cfg s).trans (goalNodes_nil_iff cfg s)
  · intro n hsome
    unfold search_best_goal_node at hsome
    cases hg : goalNodes cfg s with
    | nil =>
      rw [hg] at hsome
      exact Option.noConfusion hsome
    | cons n0 rest =>
      rw [hg] at hsome
      simp only [bestOf] at hsome
      obtain ⟨h1, h2, l1, l2, h3, h4⟩ := find_first_min n0 rest n hsome
      have h1g : n ∈ goalNodes cfg s := by
        rw [hg]
        exact h1
      have hreached : reached_goal cfg n = true := by
        have hf : n ∈ (s.tree.map (fun kv => kv.2)).filter (fun m => reached_goal cfg m) := by
          unfold goalNodes at h1g
          exact h1g
        exact List.of_mem_filter hf
      exact ⟨h1, hreached, h2, l1, l2, h3, h4⟩

/-- Witness for C6 at the probing configuration: the root is returned and
is the minimum-cost (first) goal node. -/
theorem search_best_goal_node_spec_witness :
    rootNode ∈ goalNodes cfgProbe initState ∧ reached_goal cfgProbe rootNode = true ∧
    (∀ m ∈ goalNodes cfgProbe initState, rootNode.cost ≤ m.cost) ∧
    ∃ l1 l2, goalNodes cfgProbe initState = l1 ++ rootNode :: l2 ∧
      ∀ m ∈ l1, rootNode.cost < m.cost :=
  (search_best_goal_node_spec cfgProbe initState).2 rootNode rfl

/- ## C4: the replanning protocol -/

/-- C4: `replanning(current_pose)` first prunes driven nodes; when the
stored path of the pruned state is still valid against the current
scenario it is returned unchanged; otherwise the entire tree is
discarded, one goal probe runs over the (now empty) tree, a found node
would yield its minimum-cost goal path, and else the stored path is set
to `none` and the no-path signal is returned. -/
theorem replanning_protocol (cfg : Config) (s : PlannerState) (pose : SE2Transform) :
    (∀ pp, cfg.pathValid (cfg.prune pose s).path = true →
      (cfg.prune pose s).path = some pp →
      replanning cfg s pose = Except.ok (cfg.prune pose s, some pp.path)) ∧
    (cfg.pathValid (cfg.prune pose s).path = false →
      (∀ ln, search_best_goal_node cfg { cfg.prune pose s with tree := ([] : TreeMap) }
          = some ln →
        replanning cfg s pose = Except.ok
          ({ cfg.prune pose s with tree := ([] : TreeMap), path := some (find_best_path ([] : TreeMap) ln) },
           some (find_best_path ([] : TreeMap) ln).path)) ∧
      (search_best_goal_node cfg { cfg.prune pose s with tree := ([] : TreeMap) } = none →
        replanning cfg s pose = Except.ok
          ({ cfg.prune pose s with tree := ([] : TreeMap), path := none }, none))) := by
  refine ⟨?_, fun hv => ⟨?_, ?_⟩⟩
  · intro pp hv hp
    have hv2 : cfg.pathValid (some pp) = true := by
      rw [← hp]
      exact hv
    unfold replanning
    simp [hp, hv2]
  · intro ln hln
    unfold replanning
    simp only [hv, Bool.false_eq_true, if_false, hln]
  · intro hln
    unfold replanning
    simp only [hv, Bool.false_eq_true, if_false, hln]

/-- The stored path used by the C4 witness. -/
def storedPath : RrtPath := ⟨[⟨0, 0, 0⟩, ⟨10, 0, 0⟩], 1⟩

/-- A configuration whose validity check always accepts the stored path. -/
def cfgValid : Config := { cfgDemo with pathValid := fun _ => true }

/-- An initial state carrying a stored path. -/
def validState : PlannerState := { initState with path := some storedPath }

/-- Witness for C4: the valid branch returns the stored path unchanged;
the invalid branch clears the tree and reports no-path. -/
theorem replanning_protocol_witness :
    replanning cfgValid validState ⟨0, 0, 0⟩ = Except.ok (validState, some storedPath.path) ∧
    replanning cfgDemo initState ⟨0, 0, 0⟩ =
      Except.ok ({ initState with tree := ([] : TreeMap), path := none }, none) :=
  ⟨(replanning_protocol cfgValid validState ⟨0, 0, 0⟩).1 storedPath rfl rfl,
   ((replanning_protocol cfgDemo initState ⟨0, 0, 0⟩).2 rfl).2 rfl⟩

/- ## C7: failure is a return value, not an exception -/

/-- The id discipline of the tree: a numeric node id never exceeds the
node counter (so the next assigned id is fresh); the placeholder id is
unconstrained since it is never inserted. -/
def idBounded (bound : Nat) : NodeId → Bool
  | NodeId.new => true
  | NodeId.num m => decide (m ≤ bound)

/-- Planner-state well-formedness for crash-freedom: a nonempty tree
(Python `min` over an empty sequence would raise `ValueError`) whose
numeric ids are bounded by the node counter (so insertion never hits a
duplicate id). -/
def TreeOk (s : PlannerState) : Prop :=
  s.tree ≠ [] ∧ ∀ kv ∈ s.tree, idBounded s.numberNodes kv.1 = true

/-- The bound check `idBounded` is monotone in the bound. -/
theorem idBounded_mono (b b2 : Nat) (hb : b ≤ b2) (k : NodeId)
    (h : idBounded b k = true) : idBounded b2 k = true := by
  cases k with
  | new => rfl
  | num m =>
    simp only [idBounded, decide_eq_true_eq] at h ⊢
    omega

/-- The nearest-node fold, once seeded with a candidate, stays a `some`. -/
theorem foldl_nearest_some (rnd : AnyNode) :
    ∀ (l : List (NodeId × AnyNode)) (b : AnyNode),
      ∃ n, l.foldl
        (fun acc kv =>
          match acc with
          | none => some kv.2
          | some c => if sqDist kv.2.pose rnd.pose < sqDist c.pose rnd.pose then some kv.2 else acc)
        (some b) = some n := by
  intro l
  induction l with
  | nil =>
    intro b
    exact ⟨b, rfl⟩
  | cons kv rest ih =>
    intro b
    simp only [List.foldl_cons]
    by_cases hc : sqDist kv.2.pose rnd.pose < sqDist b.pose rnd.pose
    · simpa [hc] using ih kv.2
    · simpa [hc] using ih b

/-- On a nonempty tree the nearest-node query succeeds. -/
theorem get_nearest_isSome (t : TreeMap) (rnd : AnyNode) (h : t ≠ []) :
    ∃ n, get_nearest_node_from_tree t rnd = some n := by
  cases t with
  | nil => exact absurd rfl h
  | cons kv rest =>
    unfold get_nearest_node_from_tree
    simp only [List.foldl_cons]
    exact foldl_nearest_some rnd rest kv.2

/-- In-bounds non-negative Python indexing succeeds. -/
theorem pyGet_nonneg_lt {α : Type} (l : List α) (i : Int) (h0 : 0 ≤ i)
    (hlt : i < (l.length : Int)) : ∃ x, pyGet l i = some x := by
  unfold pyGet
  rw [if_pos h0]
  have hn : i.toNat < l.length := by omega
  exact ⟨l.get ⟨i.toNat, hn⟩, List.get?_eq_get hn⟩

/-- Taking `getLast?` of a nonempty list succeeds. -/
theorem getLast?_some {α : Type} (l : List α) (h : l ≠ []) :
    ∃ x, l.getLast? = some x :=
  ⟨l.getLast h, List.getLast?_eq_getLast l h⟩

/-- With a positive path resolution and a Dubins generator that always
returns at least one sample, `constrained_steer` never raises. -/
theorem constrained_steer_no_raise (cfg : Config) (f t : AnyNode) (e : ℚ)
    (hres : 0 < cfg.pathResolution)
    (hdub : ∀ a b c r, (cfg.dubins a b c r).1 ≠ []) :
    ∃ o, constrained_steer cfg f t e = Except.ok o := by
  unfold constrained_steer
  by_cases h1 : (cfg.dubins f.pose t.pose cfg.curvature cfg.pathResolution).1.length ≤ 1
  · exact ⟨none, by simp [h1]⟩
  · have hq : (0:ℚ) ≤ 3 / cfg.pathResolution := le_of_lt (div_pos (by norm_num) hres)
    have hpi : 0 ≤ pyInt (3 / cfg.pathResolution) := by
      unfold pyInt
      rw [if_neg (not_lt.mpr hq)]
      exact Rat.le_floor.mpr (by exact_mod_cast hq)
    simp only [h1, if_false]
    by_cases h2 : pyInt (3 / cfg.pathResolution) <
        ((cfg.dubins f.pose t.pose cfg.curvature cfg.pathResolution).1.length : Int) - 1
    · obtain ⟨target, htg⟩ := pyGet_nonneg_lt
        (cfg.dubins f.pose t.pose cfg.curvature cfg.pathResolution).1
        (pyInt (3 / cfg.pathResolution)) hpi (by omega)
      simp only [h2, if_true, htg]
      obtain ⟨lp, hlp⟩ := getLast?_some
        (cfg.dubins f.pose target cfg.curvature cfg.pathResolution).1
        (hdub f.pose target cfg.curvature cfg.pathResolution)
      simp only [hlp]
      exact ⟨_, rfl⟩
    · simp only [h2, if_false]
      obtain ⟨lp, hlp⟩ := getLast?_some
        (cfg.dubins f.pose t.pose cfg.curvature cfg.pathResolution).1
        (hdub f.pose t.pose cfg.curvature cfg.pathResolution)
      simp only [hlp]
      exact ⟨_, rfl⟩

/-- Inserting a node carrying the next counter id never hits a duplicate:
the insertion succeeds and appends. -/
theorem insert_fresh (t : TreeMap) (bound : Nat) (n : AnyNode)
    (hb : ∀ kv ∈ t, idBounded bound kv.1 = true) (hn : n.id = NodeId.num (bound + 1)) :
    Tree.insert t n = Except.ok (t ++ [(n.id, n)]) := by
  have hnone : treeLookup t n.id = none := by
    unfold treeLookup
    cases hf : List.find? (fun kv => decide (kv.1 = n.id)) t with
    | none => rfl
    | some kv =>
      exfalso
      have hp := List.find?_some hf
      have hm := List.mem_of_find?_eq_some hf
      have hbd := hb kv hm
      rw [of_decide_eq_true hp, hn] at hbd
      simp only [idBounded, decide_eq_true_eq] at hbd
      omega
  simp [Tree.insert, hnone]

/-- On a well-formed state the grow step never raises and preserves
well-formedness. -/
theorem growStep_no_raise (cfg : Config) (s : PlannerState)
    (hres : 0 < cfg.pathResolution)
    (hdub : ∀ a b c r, (cfg.dubins a b c r).1 ≠ [])
    (hs : TreeOk s) :
    ∃ g, growStep cfg s = Except.ok g ∧ TreeOk g.1 := by
  obtain ⟨htne, hbound⟩ := hs
  obtain ⟨nearest, hnear⟩ := get_nearest_isSome (get_random_node cfg s).2.tree
    (get_random_node cfg s).1 htne
  obtain ⟨o, hsteer⟩ := constrained_steer_no_raise cfg nearest
    (get_random_node cfg s).1 cfg.expandDis hres hdub
  cases o with
  | none =>
    unfold growStep
    simp only [hnear, hsteer]
    exact ⟨_, rfl, htne, hbound⟩
  | some nn =>
    unfold growStep
    simp only [hnear, hsteer]
    by_cases hc : cfg.collision nn = true
    · rw [if_pos hc]
      exact ⟨_, rfl, htne, hbound⟩
    · rw [if_neg hc]
      have hins := insert_fresh (get_random_node cfg s).2.tree
        (get_random_node cfg s).2.numberNodes
        (Tree.set_child nearest
          { nn with id := NodeId.num ((get_random_node cfg s).2.numberNodes + 1) })
        hbound rfl
      rw [hins]
      refine ⟨_, rfl, ?_, ?_⟩
      · simp
      · intro kv hkv
        rcases List.mem_append.mp hkv with hkv | hkv
        · exact idBounded_mono s.numberNodes (s.numberNodes + 1) (by omega) kv.1
            (hbound kv hkv)
        · simp only [List.mem_singleton] at hkv
          rw [hkv]
          simp [Tree.set_child, idBounded]

/-- On a well-formed state one `planning` iteration never raises and
preserves well-formedness. -/
theorem planIter_no_raise (cfg : Config) (s : PlannerState)
    (hres : 0 < cfg.pathResolution)
    (hdub : ∀ a b c r, (cfg.dubins a b c r).1 ≠ [])
    (hs : TreeOk s) :
    ∃ r, planIter cfg s = Except.ok r ∧ TreeOk r.1 := by
  obtain ⟨g, hg, hok⟩ := growStep_no_raise cfg s hres hdub hs
  unfold planIter
  simp only [hg]
  by_cases hp : (!cfg.searchUntilMaxIter && g.2.1) = true
  · rw [if_pos hp]
    cases hsearch : search_best_goal_node cfg g.1 with
    | some ln => exact ⟨_, rfl, hok.1, hok.2⟩
    | none => exact ⟨_, rfl, hok⟩
  · rw [if_neg hp]
    exact ⟨_, rfl, hok⟩

/-- On a well-formed state the `planning` loop never raises and preserves
well-formedness. -/
theorem planLoop_no_raise (cfg : Config)
    (hres : 0 < cfg.pathResolution)
    (hdub : ∀ a b c r, (cfg.dubins a b c r).1 ≠ []) :
    ∀ (fuel : Nat) (s : PlannerState), TreeOk s →
      ∃ r, planLoop cfg fuel s = Except.ok r ∧ TreeOk r.1 := by
  intro fuel
  induction fuel with
  | zero =>
    intro s hs
    exact ⟨(s, none, []), rfl, hs⟩
  | succ k ih =>
    intro s hs
    obtain ⟨r, hr, hok⟩ := planIter_no_raise cfg s hres hdub hs
    unfold planLoop
    simp only [hr]
    cases hp : r.2.2 with
    | some p => exact ⟨_, rfl, hok⟩
    | none =>
      obtain ⟨rest, hrest, hrok⟩ := ih r.1 hok
      simp only [hrest]
      exact ⟨_, rfl, hrok⟩

/-- On a well-formed state `planning` never raises. -/
theorem planning_no_raise (cfg : Config) (s : PlannerState)
    (hres : 0 < cfg.pathResolution)
    (hdub : ∀ a b c r, (cfg.dubins a b c r).1 ≠ [])
    (hs : TreeOk s) :
    ∃ r, planning cfg s = Except.ok r := by
  obtain ⟨lr, hlr, hok⟩ := planLoop_no_raise cfg hres hdub cfg.maxIter s hs
  unfold planning
  simp only [hlr]
  cases hp : lr.2.1 with
  | some p => exact ⟨_, rfl⟩
  | none =>
    cases hsearch : search_best_goal_node cfg lr.1 with
    | some ln => exact ⟨_, rfl⟩
    | none => exact ⟨_, rfl⟩

/-- As long as the validity check rejects a missing stored path (so the
`self.path.path` attribute access is guarded), `replanning` never
raises. -/
theorem replanning_no_raise (cfg : Config) (s : PlannerState) (pose : SE2Transform)
    (hpv : cfg.pathValid none = false) :
    ∃ r, replanning cfg s pose = Except.ok r := by
  unfold replanning
  by_cases hv : cfg.pathValid (cfg.prune pose s).path = true
  · cases hp : (cfg.prune pose s).path with
    | some p =>
      have hv2 : cfg.pathValid (some p) = true := by
        rw [← hp]
        exact hv
      simp [hp, hv2]
    | none =>
      rw [hp, hpv] at hv
      exact absurd hv (by simp)
  · simp only [Bool.not_eq_true] at hv
    simp only [hv, Bool.false_eq_true, if_false]
    cases hsearch : search_best_goal_node cfg
        { cfg.prune pose s with tree := ([] : TreeMap) } with
    | some ln => exact ⟨_, rfl⟩
    | none => exact ⟨_, rfl⟩

/-- C7: with pure external collaborators (a Dubins generator returning at
least one sample, a positive path resolution, a validity check that
rejects a missing stored path) and a well-formed tree, `planning` and
`replanning` never raise: a missing path is reported by the distinguished
`none` result inside a normal return. -/
theorem planning_replanning_no_exception (cfg : Config) (s : PlannerState)
    (pose : SE2Transform)
    (hres : 0 < cfg.pathResolution)
    (hdub : ∀ a b c r, (cfg.dubins a b c r).1 ≠ [])
    (hs : TreeOk s)
    (hpv : cfg.pathValid none = false) :
    okB (planning cfg s) = true ∧ okB (replanning cfg s pose) = true := by
  obtain ⟨r1, h1⟩ := planning_no_raise cfg s hres hdub hs
  obtain ⟨r2, h2⟩ := replanning_no_raise cfg s pose hpv
  constructor
  · rw [h1]
    rfl
  · rw [h2]
    rfl

/-- Witness for C7 at the demo configuration. -/
theorem planning_replanning_no_exception_witness :
    okB (planning cfgDemo initState) = true ∧
    okB (replanning cfgDemo initState ⟨0, 0, 0⟩) = true :=
  planning_replanning_no_exception cfgDemo initState ⟨0, 0, 0⟩ (by decide)
    (fun a b c r => by simp [cfgDemo, dubinsLine])
    ⟨by decide, by decide⟩ rfl
